import Mathlib

/-!
Verification of the chatguide orchestration core against its
natural-language specification.

The development shallowly embeds the Python sources:
* `src/chatguide/plan.py`            → namespace `SrcPlan`
* `src/chatguide/state.py`           → namespace `SrcState`
* `src/chatguide/adjustments.py`     → namespace `SrcAdj` (checkpoint side)
* `src/chatguide/chatguide.py`       → namespace `SrcCG` (checkpoint / restore)
* `python/chatguide/schemas.py`      → namespace `Schemas`
* `python/chatguide/core/task.py`    → namespace `CoreTask`
* `python/chatguide/adjustments.py`  → namespace `PyAdj`
* `python/chatguide/chatguide.py`    → namespace `MinCG`

Python dicts that preserve insertion order are embedded as association
lists (`List (String × α)`) with last-write-updates-in-place semantics;
Python `None` for an optional value is `Option.none`; machine floats that
the code only parses, compares and formats are embedded as exact
fractions (`PyFloat`, an integer numerator over a positive power-of-ten
denominator — exact for every value these claims touch; no rounding is
exercised).
-/

/-- Lookup in an insertion-ordered dict (first matching key, as in a
Python dict where keys are unique). -/
def dlookup {α : Type} : List (String × α) → String → Option α
  | [], _ => none
  | (k, v) :: rest, key => if k = key then some v else dlookup rest key

/-- Python `d[k] = v` on an insertion-ordered dict: replace in place if the
key exists, else append at the end. -/
def dset {α : Type} : List (String × α) → String → α → List (String × α)
  | [], key, v => [(key, v)]
  | (k, w) :: rest, key, v =>
    if k = key then (key, v) :: rest else (k, w) :: dset rest key v

/-- Python `list.insert(i, x)` for a non-negative position already clamped
to a `Nat`: insert before position `pos`, appending when `pos ≥ length`. -/
def insertAt {α : Type} : Nat → α → List α → List α
  | _, x, [] => [x]
  | 0, x, xs => x :: xs
  | Nat.succ n, x, y :: ys => y :: insertAt n x ys

/-- Python `list.insert(i, x)` with full index semantics: a negative index
counts from the end (clamped at 0), an index past the end appends. -/
def pyInsert {α : Type} (xs : List α) (i : Int) (x : α) : List α :=
  insertAt (if i < 0 then ((xs.length : Int) + i).toNat else min i.toNat xs.length) x xs

/-- Python `list.pop(i)` for an in-range non-negative index: remove the
element at `pos`. -/
def removeAt {α : Type} : Nat → List α → List α
  | _, [] => []
  | 0, _ :: xs => xs
  | Nat.succ n, x :: xs => x :: removeAt n xs

/-- Python `l[i] = x` for an in-range non-negative index. -/
def setAt {α : Type} : Nat → α → List α → List α
  | _, _, [] => []
  | 0, x, _ :: xs => x :: xs
  | Nat.succ n, x, y :: ys => y :: setAt n x ys

namespace SrcPlan

/-- `Plan` from `src/chatguide/plan.py`: an ordered list of task-name blocks
and a cursor.  `_blocks` holds `List String` blocks; `_current_index`
starts at 0. -/
structure Plan where
  blocks : List (List String)
  current_index : Nat
  deriving DecidableEq, Repr

/-- `Plan.get_current_block`: the block at the cursor, `[]` when the cursor
is past the end. -/
def Plan.get_current_block (p : Plan) : List String :=
  if p.current_index < p.blocks.length then p.blocks.getD p.current_index [] else []

/-- `Plan.get_block`: the block at `index` when `0 <= index < len(blocks)`,
else `[]`. -/
def Plan.get_block (p : Plan) (index : Int) : List String :=
  if 0 ≤ index ∧ index < (p.blocks.length : Int) then p.blocks.getD index.toNat [] else []

/-- `Plan.advance`: increment the cursor unless it is already past the end. -/
def Plan.advance (p : Plan) : Plan :=
  if p.current_index < p.blocks.length then { p with current_index := p.current_index + 1 } else p

/-- `Plan.jump_to`: set the cursor to `index` when `0 <= index < len(blocks)`,
silently do nothing otherwise. -/
def Plan.jump_to (p : Plan) (index : Int) : Plan :=
  if 0 ≤ index ∧ index < (p.blocks.length : Int) then { p with current_index := index.toNat } else p

/-- `Plan.insert_block`: `self._blocks.insert(index, tasks)` — NOT
bounds-checked; Python `list.insert` clamps the index. -/
def Plan.insert_block (p : Plan) (index : Int) (tasks : List String) : Plan :=
  { p with blocks := pyInsert p.blocks index tasks }

/-- `Plan.remove_block`: pop the block at `index` when in range, silently do
nothing otherwise. -/
def Plan.remove_block (p : Plan) (index : Int) : Plan :=
  if 0 ≤ index ∧ index < (p.blocks.length : Int) then { p with blocks := removeAt index.toNat p.blocks } else p

/-- `Plan.replace_block`: overwrite the block at `index` when in range,
silently do nothing otherwise. -/
def Plan.replace_block (p : Plan) (index : Int) (tasks : List String) : Plan :=
  if 0 ≤ index ∧ index < (p.blocks.length : Int) then { p with blocks := setAt index.toNat tasks p.blocks } else p

/-- `Plan.insert_task`: append `task` to the block at `block_index` (or
insert at `position` via Python `list.insert`) when the block index is in
range. -/
def Plan.insert_task (p : Plan) (block_index : Int) (task : String) (position : Option Int) : Plan :=
  if 0 ≤ block_index ∧ block_index < (p.blocks.length : Int) then
    let blk := p.blocks.getD block_index.toNat []
    let blk' := match position with
      | none => blk ++ [task]
      | some pos => pyInsert blk pos task
    { p with blocks := setAt block_index.toNat blk' p.blocks }
  else p

/-- `Plan.remove_task`: remove the first occurrence of `task` from the block
at `block_index` when that index is in range and the task is present. -/
def Plan.remove_task (p : Plan) (block_index : Int) (task : String) : Plan :=
  if 0 ≤ block_index ∧ block_index < (p.blocks.length : Int) then
    let blk := p.blocks.getD block_index.toNat []
    if task ∈ blk then { p with blocks := setAt block_index.toNat (blk.erase task) p.blocks } else p
  else p

/-- `Plan.is_finished`: the cursor is at or past the end. -/
def Plan.is_finished (p : Plan) : Bool :=
  p.blocks.length ≤ p.current_index

/-- The mutating operations of `Plan`, for statements quantifying over
operation sequences. -/
inductive PlanOp where
  | advance : PlanOp
  | jump_to (index : Int) : PlanOp
  | insert_block (index : Int) (tasks : List String) : PlanOp
  | remove_block (index : Int) : PlanOp
  | replace_block (index : Int) (tasks : List String) : PlanOp
  | insert_task (block_index : Int) (task : String) (position : Option Int) : PlanOp
  | remove_task (block_index : Int) (task : String) : PlanOp
  deriving DecidableEq, Repr

/-- Apply one mutating operation. -/
def PlanOp.apply (p : Plan) : PlanOp → Plan
  | .advance => p.advance
  | .jump_to i => p.jump_to i
  | .insert_block i ts => p.insert_block i ts
  | .remove_block i => p.remove_block i
  | .replace_block i ts => p.replace_block i ts
  | .insert_task b t pos => p.insert_task b t pos
  | .remove_task b t => p.remove_task b t

/-- Apply a sequence of operations left to right. -/
def applyOps (ops : List PlanOp) (p : Plan) : Plan :=
  ops.foldl PlanOp.apply p

/-- Whether an operation is an explicit `jump_to`. -/
def PlanOp.isJump : PlanOp → Bool
  | .jump_to _ => true
  | _ => false

end SrcPlan

namespace Schemas

/-- Digits prefix of a char list: `(digits, rest)`. -/
def spanDigits : List Char → List Char × List Char
  | [] => ([], [])
  | c :: cs =>
    if c.isDigit then
      let (d, r) := spanDigits cs
      (c :: d, r)
    else ([], c :: cs)

/-- Value of a decimal digit string. -/
def digitsToNat (ds : List Char) : Nat :=
  ds.foldl (fun acc c => 10 * acc + (c.toNat - 48)) 0

/-- An exact embedding of the CPython floats the code meets: an integer
numerator over a positive (power-of-ten) denominator, NOT kept in lowest
terms — comparison and equality go through cross-multiplication, as for
mathematical fractions.  (Python floats are binary; every literal these
claims parse, compare and format is exactly representable, so the
fraction model is exact where it is exercised.) -/
structure PyFloat where
  num : Int
  den : Nat := 1
  deriving DecidableEq, Repr

/-- Float `<` via cross-multiplication (denominators are positive on every
construction path). -/
def PyFloat.lt (a b : PyFloat) : Prop :=
  a.num * (b.den : Int) < b.num * (a.den : Int)

instance (a b : PyFloat) : Decidable (a.lt b) :=
  inferInstanceAs (Decidable (_ < _))

/-- Float `<=` via cross-multiplication. -/
def PyFloat.le (a b : PyFloat) : Prop :=
  a.num * (b.den : Int) ≤ b.num * (a.den : Int)

instance (a b : PyFloat) : Decidable (a.le b) :=
  inferInstanceAs (Decidable (_ ≤ _))

/-- Float `==` via cross-multiplication. -/
def PyFloat.equiv (a b : PyFloat) : Prop :=
  a.num * (b.den : Int) = b.num * (a.den : Int)

instance (a b : PyFloat) : Decidable (a.equiv b) :=
  inferInstanceAs (Decidable (_ = _))

/-- Multiply by a signed power of ten. -/
def scalePow10 (q : PyFloat) (e : Int) : PyFloat :=
  if 0 ≤ e then { q with num := q.num * (10 : Int) ^ e.toNat }
  else { q with den := q.den * 10 ^ (-e).toNat }

/-- The optional exponent tail of a float literal (`e±ddd`), after the
mantissa.  `none` when the tail is not a valid exponent or not empty. -/
def parseExpTail : List Char → Option Int
  | [] => some 0
  | c :: cs =>
    if c = 'e' ∨ c = 'E' then
      let (eneg, cs1) : Bool × List Char :=
        match cs with
        | '-' :: rest => (true, rest)
        | '+' :: rest => (false, rest)
        | rest => (false, rest)
      let (ds, rest) := spanDigits cs1
      if ds = [] ∨ rest ≠ [] then none
      else some (if eneg then -(digitsToNat ds : Int) else (digitsToNat ds : Int))
    else none

/-- Model of CPython `float(value)` on the literal forms the code meets:
optional sign, decimal digits with an optional fractional part, optional
exponent.  (The model leaves out `inf`/`nan`, underscores and surrounding
whitespace; the float is exact as a rational here, since the claims only
parse, compare and format short decimal literals.)  `none` models the
`ValueError` branch. -/
def pyFloat? (s : String) : Option PyFloat :=
  let cs := s.data
  let (neg, cs1) : Bool × List Char :=
    match cs with
    | '-' :: rest => (true, rest)
    | '+' :: rest => (false, rest)
    | rest => (false, rest)
  let (ip, r1) := spanDigits cs1
  let (fp, r2) : List Char × List Char :=
    match r1 with
    | '.' :: rest => spanDigits rest
    | rest => ([], rest)
  let sawDot : Bool := match r1 with | '.' :: _ => true | _ => false
  if ip = [] ∧ (fp = [] ∨ sawDot = false) then none
  else
    match parseExpTail r2 with
    | none => none
    | some e =>
      let mant : PyFloat :=
        { num := (digitsToNat ip : Int) * (10 : Int) ^ fp.length + (digitsToNat fp : Int),
          den := 10 ^ fp.length }
      some (scalePow10 (if neg then { mant with num := -mant.num } else mant) e)

/-- Decimal digits of `rem / den`, at most `fuel` of them. -/
def fracDigits : Nat → Nat → Nat → List Char
  | 0, _, _ => []
  | _, 0, _ => []
  | Nat.succ f, rem, den => Char.ofNat (48 + rem * 10 / den) :: fracDigits f (rem * 10 % den) den

/-- Model of the Python f-string rendering of a float (`f"Value 150.0 ..."`):
an integral value prints with a trailing `.0`, a fractional one with its
decimal digits (exact for every value these claims format). -/
def pyFloatRepr (q : PyFloat) : String :=
  let sign := if q.num < 0 then "-" else ""
  let n := q.num.natAbs
  let d := q.den
  let fr := if n % d = 0 then "0" else String.mk (fracDigits 17 (n % d) d)
  sign ++ toString (n / d) ++ "." ++ fr

/-- ASCII model of Python `str.lower()`. -/
def asciiLower (s : String) : String :=
  String.mk (s.data.map fun c => if 'A' ≤ c ∧ c ≤ 'Z' then Char.ofNat (c.toNat + 32) else c)

/-- `ExpectDefinition` from `python/chatguide/schemas.py`: an expected value
with optional validation.  `min`/`max` are floats in the source, embedded
as rationals. -/
structure ExpectDefinition where
  key : String
  type : String := "string"
  min : Option PyFloat := none
  max : Option PyFloat := none
  choices : Option (List String) := none
  confirm : Bool := false
  deriving DecidableEq, Repr

/-- The `max` check of `validate_value`'s number branch
(`num > self.max` fails). -/
def checkMax (num : PyFloat) : Option PyFloat → Bool × String
  | some mx =>
    if mx.lt num then
      (false, "Value " ++ pyFloatRepr num ++ " is above maximum " ++ pyFloatRepr mx)
    else (true, "")
  | none => (true, "")

/-- The `min` then `max` checks of `validate_value`'s number branch. -/
def checkMin (num : PyFloat) (mn mx : Option PyFloat) : Bool × String :=
  match mn with
  | some m =>
    if num.lt m then
      (false, "Value " ++ pyFloatRepr num ++ " is below minimum " ++ pyFloatRepr m)
    else checkMax num mx
  | none => checkMax num mx

/-- `ExpectDefinition.validate_value`: `(is_valid, error_message)`.
Type `number` must parse via `float` and respect `min`/`max`; type `enum`
is checked case-insensitively against `choices` only when `choices` is
truthy (present and non-empty); anything else passes. -/
def ExpectDefinition.validate_value (e : ExpectDefinition) (value : String) : Bool × String :=
  if e.type = "number" then
    match pyFloat? value with
    | none => (false, "'" ++ value ++ "' is not a valid number")
    | some num => checkMin num e.min e.max
  else if e.type = "enum" then
    match e.choices with
    | some cs =>
      if cs ≠ [] ∧ asciiLower value ∉ cs.map asciiLower then
        (false, "Value must be one of: " ++ String.intercalate ", " cs)
      else (true, "")
    | none => (true, "")
  else (true, "")

/-- The spec's acceptance predicate for an enum value: a case-insensitive
member of `choices`. -/
def enumMemberSpec (e : ExpectDefinition) (value : String) : Prop :=
  ∃ c ∈ e.choices.getD [], asciiLower c = asciiLower value

instance (e : ExpectDefinition) (value : String) : Decidable (enumMemberSpec e value) :=
  List.decidableBEx _ _

end Schemas

namespace CoreTask

/-- `Task` from `python/chatguide/core/task.py`.  `expects` holds
`ExpectDefinition` objects (the module's own comment: all expects are
normalized at load time); `result` is the `{"key": ..., "value": ...}`
dict; tool dicts are embedded as string association lists. -/
structure Task where
  id : String
  description : String
  expects : List Schemas.ExpectDefinition := []
  tools : List (List (String × String)) := []
  silent : Bool := false
  status : String := "pending"
  result : Option (String × String) := none
  deriving DecidableEq, Repr

/-- `Task.complete`: mark completed with the extracted value; a second call
on an already-completed task returns without touching anything. -/
def Task.complete (t : Task) (key : String) (value : String) : Task :=
  if t.status = "completed" then t
  else { t with status := "completed", result := some (key, value) }

/-- `Task.is_completed`. -/
def Task.is_completed (t : Task) : Bool :=
  t.status = "completed"

end CoreTask

/-- A Python value as the state stores and the configs supply them:
a string, a number (float/int, embedded as `Schemas.PyFloat`), a boolean,
or `None`. -/
inductive PyVal where
  | str (s : String) : PyVal
  | num (q : Schemas.PyFloat) : PyVal
  | bool (b : Bool) : PyVal
  | null : PyVal
  deriving DecidableEq, Repr

/-- Python `==` on the embedded values (a `bool` is an `int` in Python, so
`True == 1`; a string never equals a number). -/
def pyEq : PyVal → PyVal → Bool
  | .str a, .str b => a = b
  | .num a, .num b => decide (Schemas.PyFloat.equiv a b)
  | .bool a, .bool b => a = b
  | .null, .null => true
  | .bool a, .num b => decide (Schemas.PyFloat.equiv (if a then { num := 1 } else { num := 0 }) b)
  | .num a, .bool b => decide (Schemas.PyFloat.equiv a (if b then { num := 1 } else { num := 0 }))
  | _, _ => false

/-- Python `float(x)` on an embedded value: `none` models the raised
`ValueError`/`TypeError`. -/
def pyFloatOfVal : PyVal → Option Schemas.PyFloat
  | .num q => some q
  | .bool b => some (if b then { num := 1 } else { num := 0 })
  | .str s => Schemas.pyFloat? s
  | .null => none

namespace PyAdj

/-- The condition AST of `python/chatguide/adjustments.py`: a bare boolean
(`isinstance(self.condition, bool)`), the dict operators `all`/`any`/
`not`/`has`/`eq`/`gt`, or anything else (which evaluates to `False`, the
evaluator's fallthrough and the non-dict non-bool branch alike). -/
inductive Cond where
  | bool (b : Bool) : Cond
  | all (cs : List Cond) : Cond
  | any (cs : List Cond) : Cond
  | not (c : Cond) : Cond
  | has (key : String) : Cond
  | eq (key : String) (value : PyVal) : Cond
  | gt (key : String) (value : Schemas.PyFloat) : Cond
  | other : Cond

/-- The state map behind `State._data` (`src/chatguide/state.py`), which is
what the condition evaluator reads through `state.get`. -/
abbrev StateMap : Type := List (String × PyVal)

/-- `state.get(key)`: `None` for a missing key. -/
def stateGet (st : StateMap) (key : String) : PyVal :=
  (dlookup st key).getD PyVal.null

/-- `state.get(key, default)`. -/
def stateGetD (st : StateMap) (key : String) (default : PyVal) : PyVal :=
  (dlookup st key).getD default

/-- `State.set` (audit logging omitted: the engine is constructed without
an audit log and no claim reads it). -/
def stateSet (st : StateMap) (key : String) (value : PyVal) : StateMap :=
  dset st key value

mutual

/-- `Adjustment._eval_condition` plus the `evaluate_condition` dispatch:
`Except.error` models a raised exception (e.g. `float()` of an unparsable
state value under `gt`), which the caller catches. -/
def evalCond : Cond → StateMap → Except Unit Bool
  | .bool b, _ => .ok b
  | .all cs, st => evalCondAll cs st
  | .any cs, st => evalCondAny cs st
  | .not c, st =>
    match evalCond c st with
    | .ok b => .ok (!b)
    | .error e => .error e
  | .has key, st => .ok (stateGet st key ≠ PyVal.null)
  | .eq key value, st => .ok (pyEq (stateGet st key) value)
  | .gt key value, st =>
    match pyFloatOfVal (stateGetD st key (PyVal.num { num := 0 })) with
    | some q => .ok (decide (value.lt q))
    | none => .error ()
  | .other, _ => .ok false

/-- Python `all(...)` over condition results: short-circuits on the first
`False`, propagates a raised exception. -/
def evalCondAll : List Cond → StateMap → Except Unit Bool
  | [], _ => .ok true
  | c :: cs, st =>
    match evalCond c st with
    | .ok true => evalCondAll cs st
    | .ok false => .ok false
    | .error e => .error e

/-- Python `any(...)` over condition results. -/
def evalCondAny : List Cond → StateMap → Except Unit Bool
  | [], _ => .ok false
  | c :: cs, st =>
    match evalCond c st with
    | .ok true => .ok true
    | .ok false => evalCondAny cs st
    | .error e => .error e

end

/-- The typed action dataclasses of `python/chatguide/adjustments.py`
(`PlanJump`, `PlanInsertBlock`, `PlanRemoveBlock`, `PlanReplaceBlock`,
`ToneSet`, `ToneAdd`, `StateSet`).  The legacy dict-action branch of
`_execute_actions` performs the same plan/tone mutations and is not
exercised by any claim. -/
inductive Action where
  | planJump (index : Int) : Action
  | planInsertBlock (index : Int) (tasks : List String) : Action
  | planRemoveBlock (index : Int) : Action
  | planReplaceBlock (index : Int) (tasks : List String) : Action
  | toneSet (tones : List String) : Action
  | toneAdd (tone : String) : Action
  | stateSet (key : String) (value : PyVal) : Action
  deriving DecidableEq, Repr

/-- `Block` from the python package's core (`from .core.block import Block`).
Modelled from the spec: the module `python/chatguide/core/block.py` is not
in the source tree; per the spec a Block is an ordered group of Tasks, and
`_execute_actions` builds one as `Block([Task(id=tid, description="") ...])`. -/
structure Block where
  tasks : List CoreTask.Task
  deriving DecidableEq, Repr

/-- The `Plan` this engine mutates (`from .plan import Plan`).  Modelled from
the spec: the python package has no `plan.py`; per the spec (§3, §4.1) a
Plan is an ordered sequence of blocks with a cursor whose mutations follow
the sibling `src/chatguide/plan.py` semantics, over `Block` objects here. -/
structure BPlan where
  blocks : List Block
  current_index : Nat
  deriving DecidableEq, Repr

/-- Modelled from the spec: `jump_to` on the python package's missing Plan
(bounds-checked, silent no-op out of range). -/
def BPlan.jump_to (p : BPlan) (index : Int) : BPlan :=
  if 0 ≤ index ∧ index < (p.blocks.length : Int) then { p with current_index := index.toNat } else p

/-- Modelled from the spec: `insert_block` via Python `list.insert`. -/
def BPlan.insert_block (p : BPlan) (index : Int) (block : Block) : BPlan :=
  { p with blocks := pyInsert p.blocks index block }

/-- Modelled from the spec: `remove_block` (bounds-checked, silent no-op). -/
def BPlan.remove_block (p : BPlan) (index : Int) : BPlan :=
  if 0 ≤ index ∧ index < (p.blocks.length : Int) then { p with blocks := removeAt index.toNat p.blocks } else p

/-- Modelled from the spec: `replace_block` (bounds-checked, silent no-op). -/
def BPlan.replace_block (p : BPlan) (index : Int) (block : Block) : BPlan :=
  if 0 ≤ index ∧ index < (p.blocks.length : Int) then { p with blocks := setAt index.toNat block p.blocks } else p

/-- One `Adjustment` rule: name, condition, actions, latched `fired` flag
(initially `False`). -/
structure Adjustment where
  name : String
  condition : Cond
  actions : List Action
  fired : Bool := false

/-- The mutable environment `evaluate` threads: state, plan and tone. -/
structure EngSt where
  state : StateMap
  plan : BPlan
  tone : List String

/-- `Task(id=tid, description="")` as `_execute_actions` builds block tasks. -/
def mkBlockTask (tid : String) : CoreTask.Task :=
  { id := tid, description := "" }

/-- Execute one typed action (`Adjustments._execute_actions` body). -/
def execAction (st : EngSt) : Action → EngSt
  | .planJump i => { st with plan := st.plan.jump_to i }
  | .planInsertBlock i ts => { st with plan := st.plan.insert_block i ⟨ts.map mkBlockTask⟩ }
  | .planRemoveBlock i => { st with plan := st.plan.remove_block i }
  | .planReplaceBlock i ts => { st with plan := st.plan.replace_block i ⟨ts.map mkBlockTask⟩ }
  | .toneSet ts => { st with tone := ts }
  | .toneAdd t => if t ≠ "" ∧ t ∉ st.tone then { st with tone := st.tone ++ [t] } else st
  | .stateSet k v => if k ≠ "" then { st with state := stateSet st.state k v } else st

/-- `Adjustments._execute_actions`: run the actions in order. -/
def execActions (st : EngSt) (actions : List Action) : EngSt :=
  actions.foldl execAction st

/-- The loop body of `Adjustments.evaluate`, instrumented: each adjustment
is returned with a flag saying whether its actions executed during this
call.  A fired adjustment is skipped; an un-fired one whose condition
evaluates `True` has its actions executed and its `fired` flag set; a
condition that raises is caught (logged) and the loop continues.  The loop
never stops early. -/
def evalStep : List Adjustment → EngSt → List (Adjustment × Bool) × EngSt
  | [], st => ([], st)
  | a :: rest, st =>
    if a.fired then
      ((a, false) :: (evalStep rest st).1, (evalStep rest st).2)
    else
      match evalCond a.condition st.state with
      | .ok true =>
        (({ a with fired := true }, true) :: (evalStep rest (execActions st a.actions)).1,
         (evalStep rest (execActions st a.actions)).2)
      | _ =>
        ((a, false) :: (evalStep rest st).1, (evalStep rest st).2)

/-- `Adjustments.evaluate`: the updated adjustment list, the updated
environment, and `fired_names` — the names appended for exactly the
adjustments whose actions executed, in list order. -/
def evaluate (adjs : List Adjustment) (st : EngSt) : List Adjustment × EngSt × List String :=
  ((evalStep adjs st).1.map (·.1), (evalStep adjs st).2,
   ((evalStep adjs st).1.filter (·.2)).map (fun p => p.1.name))

/-- A conversation: one `evaluate` call per turn.  Each turn's environment
is supplied externally (covering every way the rest of the system mutates
state/plan/tone between turns); the adjustment list with its latched
`fired` flags is threaded through.  Returns per-turn execution flags,
aligned with adjustment positions. -/
def runTurns : List Adjustment → List EngSt → List Adjustment × List (List Bool)
  | adjs, [] => (adjs, [])
  | adjs, env :: envs =>
    ((runTurns ((evalStep adjs env).1.map (·.1)) envs).1,
     (evalStep adjs env).1.map (·.2) :: (runTurns ((evalStep adjs env).1.map (·.1)) envs).2)

/-- How many turns of a run executed the actions of the adjustment at
position `i`. -/
def execCount (i : Nat) : List (List Bool) → Nat
  | [] => 0
  | fl :: rest => (if fl.getD i false then 1 else 0) + execCount i rest

end PyAdj

/-- `startsW hay nd`: `nd` is a prefix of `hay` (over char lists). -/
def startsW : List Char → List Char → Bool
  | _, [] => true
  | [], _ :: _ => false
  | a :: as_, b :: bs => a == b && startsW as_ bs

/-- `listSub hay nd`: `nd` occurs as a contiguous run of `hay`. -/
def listSub : List Char → List Char → Bool
  | [], nd => startsW [] nd
  | c :: t, nd => startsW (c :: t) nd || listSub t nd

/-- Substring test (`nd in hay` on Python strings). -/
def containsSub (hay nd : String) : Bool :=
  listSub hay.data nd.data

deriving instance DecidableEq for Except

namespace MinCG

/-- A task entry of `config["tasks"]` in `python/chatguide/chatguide.py`:
`{"description", "expects" (normalized to ExpectDefinition), "silent"}`. -/
structure TaskDef where
  description : String
  expects : List Schemas.ExpectDefinition := []
  silent : Bool := false
  deriving DecidableEq, Repr

/-- The static config: `{"tasks", "blocks", "tone", "guardrails",
"language"}`. -/
structure CGConfig where
  blocks : List (List String)
  tasks : List (String × TaskDef)
  tone : String := ""
  guardrails : String := ""
  language : String := "en"
  deriving DecidableEq, Repr

/-- `TaskResult` from `python/chatguide/schemas.py`.  The pydantic field is
`value: str` — not Optional, no default — so a constructed `TaskResult`
always carries a string; `TaskResult(value=None)` raises a pydantic
`ValidationError` (modelled as `Except.error` where `_process_reply`
attempts it). -/
structure TaskResult where
  task_id : String := ""
  key : String
  value : String
  deriving DecidableEq, Repr

/-- `ToolCall` from `python/chatguide/schemas.py`. -/
structure ToolCall where
  tool : String
  options : Option (List String) := none
  deriving DecidableEq, Repr

/-- `ChatGuideReply`: the LLM response envelope. -/
structure Reply where
  assistant_reply : String
  task_results : List TaskResult := []
  tools : List ToolCall := []
  deriving DecidableEq, Repr

/-- The dynamic `self.state` dict: extracted data, message history
(`(role, content)` pairs), current block index, completed task ids (a
Python set, embedded as an insertion-ordered duplicate-free list — the
code only tests membership and adds), recent keys, and the last
validation error. -/
structure CGState where
  data : List (String × String)
  messages : List (String × String) := []
  block : Nat := 0
  completed : List String := []
  recent_keys : List String := []
  last_error : Option String := none
  deriving DecidableEq, Repr

/-- First task id of a block not yet completed. -/
def firstPending (completed : List String) : List String → Option String
  | [] => none
  | tid :: rest => if tid ∈ completed then firstPending completed rest else some tid

/-- `ChatGuide._current_task_id`: `None` past the last block, else the first
task of the current block not in `completed`. -/
def currentTaskId (cfg : CGConfig) (st : CGState) : Option String :=
  if st.block < cfg.blocks.length then firstPending st.completed (cfg.blocks.getD st.block [])
  else none

/-- `self.config["tasks"].get(task_id, {})`: the empty task definition as
default. -/
def taskDefD (cfg : CGConfig) (tid : String) : TaskDef :=
  (dlookup cfg.tasks tid).getD ⟨"", [], false⟩

/-- `ChatGuide._current_task`: the config entry for the current task id,
`None` when absent. -/
def currentTask (cfg : CGConfig) (st : CGState) : Option TaskDef :=
  (currentTaskId cfg st).bind (dlookup cfg.tasks)

/-- `ChatGuide._task_is_complete`: all expected keys have non-null values
in `state["data"]`. -/
def taskIsComplete (cfg : CGConfig) (st : CGState) (tid : String) : Bool :=
  ((taskDefD cfg tid).expects).all fun e => (dlookup st.data e.key).isSome

/-- `ChatGuide._current_block_tasks`. -/
def currentBlockTasks (cfg : CGConfig) (st : CGState) : List String :=
  if st.block < cfg.blocks.length then cfg.blocks.getD st.block [] else []

/-- `ChatGuide._block_complete`: every task of the current block is in
`completed`. -/
def blockComplete (cfg : CGConfig) (st : CGState) : Bool :=
  (currentBlockTasks cfg st).all fun tid => tid ∈ st.completed

/-- `set.add(tid)` on the embedded completed-set. -/
def addCompleted (completed : List String) (tid : String) : List String :=
  if tid ∈ completed then completed else completed ++ [tid]

/-- `result_dict = {tr.key: tr for tr in filtered_results}` then
`result_dict.get(k)`: the LAST entry with the key wins, as in a dict
comprehension. -/
def lookupLast : List TaskResult → String → Option TaskResult
  | [], _ => none
  | tr :: rest, k =>
    match lookupLast rest k with
    | some r => some r
    | none => if tr.key = k then some tr else none

/-- Step 2 of `_process_reply`: one entry per expected key.  For a missing
expected key the source executes `TaskResult(task_id=..., key=...,
value=None)` — but `TaskResult.value` is typed `str`, so pydantic raises a
`ValidationError` there instead of synthesizing a null entry:
`Except.error` models that uncaught exception. -/
def turnResults (tid : String) : List String → List TaskResult → Except Unit (List TaskResult)
  | [], _ => .ok []
  | k :: rest, filtered =>
    match lookupLast filtered k with
    | some tr =>
      match turnResults tid rest filtered with
      | .ok more => .ok (tr :: more)
      | .error e => .error e
    | none => .error ()

/-- The retry directive `_process_reply` stores in `state["last_error"]`. -/
def mkRetryMsg (key value err : String) : String :=
  "User provided '" ++ value ++ "' for '" ++ key ++ "', but that is invalid: " ++ err ++ ". Ask them to correct it."

/-- Step 3 of `_process_reply`: walk the completed result list; a valid
value is written to `data` (recording the key in `recent_keys` once); the
first invalid value sets `last_error` and BREAKS (later results are not
processed).  The source's `if tr.value is None: continue` guard has no
counterpart here: pydantic constrains `value` to `str`, so no constructed
result ever carries `None` and the guard is unreachable. -/
def applyResults (expects : List Schemas.ExpectDefinition) : List TaskResult → CGState → CGState
  | [], st => st
  | tr :: rest, st =>
    let vr := match expects.find? (fun e => e.key = tr.key) with
      | some e => e.validate_value tr.value
      | none => (true, "")
    if vr.1 then
      applyResults expects rest { st with
        data := dset st.data tr.key tr.value,
        recent_keys := if tr.key ∈ st.recent_keys then st.recent_keys else st.recent_keys ++ [tr.key] }
    else
      { st with last_error := some (mkRetryMsg tr.key tr.value vr.2) }

/-- Steps 1–2 of `_process_reply` for the task `tid`: whitelist the reply's
results against the task's expected keys, then complete them — raising
(pydantic `ValidationError`) when any expected key is missing. -/
def turnResultsFor (cfg : CGConfig) (tid : String) (reply : Reply) : Except Unit (List TaskResult) :=
  turnResults tid (((taskDefD cfg tid).expects).map (·.key))
    (reply.task_results.filter fun tr => (((taskDefD cfg tid).expects).map (·.key)).contains tr.key)

/-- Steps 4–5 of `_process_reply`: mark the task completed when all its
expected keys are non-null, and advance the block when it is complete. -/
def completeAdvance (cfg : CGConfig) (tid : String) (st1 : CGState) : CGState :=
  if taskIsComplete cfg st1 tid then
    if blockComplete cfg { st1 with completed := addCompleted st1.completed tid } then
      { st1 with completed := addCompleted st1.completed tid, block := st1.block + 1 }
    else { st1 with completed := addCompleted st1.completed tid }
  else st1

/-- `ChatGuide._process_reply`: reset `last_error`, whitelist and complete
the results, validate and write them, then complete the task and advance
the block when warranted.  `Except.error` is the pydantic
`ValidationError` raised while synthesizing a missing expected key; it is
caught nowhere in `_process_reply` or `chat`, so it propagates to the
caller (the in-place mutations made before the raise are not modelled —
no claim reads the instance after a crash). -/
def processReply (cfg : CGConfig) (st : CGState) (reply : Reply) : Except Unit CGState :=
  match currentTaskId cfg { st with last_error := none } with
  | none => .ok { st with last_error := none }
  | some tid =>
    match turnResultsFor cfg tid reply with
    | .error e => .error e
    | .ok cres =>
      .ok (completeAdvance cfg tid
        (applyResults ((taskDefD cfg tid).expects) cres { st with last_error := none }))

/-- What `ChatGuide.chat` hands back to the caller: a returned
`ChatGuideReply`, the implicit `None` of falling off the retry loop, or
the need for another LLM call beyond the supplied oracle replies. -/
inductive ChatOut where
  | reply (r : Reply) : ChatOut
  | noneReturn : ChatOut
  | outOfReplies : ChatOut
  deriving DecidableEq, Repr

/-- Append the assistant reply to the message history (the non-silent
return path). -/
def appendAssistant (st : CGState) (r : Reply) : CGState :=
  { st with messages := st.messages ++ [("assistant", r.assistant_reply)] }

/-- The `while retry_count < max_retries` loop of `ChatGuide.chat`, with
the LLM modelled as an oracle list of replies (one consumed per
iteration).  An incomplete current task bumps the retry count and either
continues the loop or, at the budget, force-completes the task (advancing
the block when complete); a silent task loops instead of returning; the
loop condition failing returns Python `None`; a `ValidationError` from
`_process_reply` propagates out of `chat` uncaught. -/
def chatLoop (cfg : CGConfig) (maxR : Nat) : List Reply → CGState → Nat → Except Unit (ChatOut × CGState)
  | replies, st, retry =>
    if retry < maxR then
      match replies with
      | [] => .ok (.outOfReplies, st)
      | r :: rest =>
        let isSilent := match currentTask cfg st with
          | some t => t.silent
          | none => false
        match processReply cfg st r with
        | .error e => .error e
        | .ok st1 =>
          match currentTaskId cfg st1 with
          | some tid =>
            if taskIsComplete cfg st1 tid then
              if isSilent then chatLoop cfg maxR rest st1 retry
              else .ok (.reply r, appendAssistant st1 r)
            else
              if retry + 1 < maxR then chatLoop cfg maxR rest st1 (retry + 1)
              else
                let st2 : CGState := { st1 with completed := addCompleted st1.completed tid }
                let st3 := if blockComplete cfg st2 then { st2 with block := st2.block + 1 } else st2
                if isSilent then chatLoop cfg maxR rest st3 (retry + 1)
                else .ok (.reply r, appendAssistant st3 r)
          | none =>
            if isSilent then chatLoop cfg maxR rest st1 retry
            else .ok (.reply r, appendAssistant st1 r)
    else .ok (.noneReturn, st)

/-- `ChatGuide.chat` with its default `max_retries = 2`: run the retry loop
from `retry_count = 0`. -/
def chat (cfg : CGConfig) (st : CGState) (replies : List Reply) (maxR : Nat := 2) :
    Except Unit (ChatOut × CGState) :=
  chatLoop cfg maxR replies st 0

/-- Render the state data for the prompt. -/
def renderData : List (String × String) → String
  | [] => ""
  | (k, v) :: rest => "- " ++ k ++ ": " ++ v ++ "\n" ++ renderData rest

/-- Render the message history for the prompt. -/
def renderMessages : List (String × String) → String
  | [] => ""
  | (role, content) :: rest => role ++ ": " ++ content ++ "\n" ++ renderMessages rest

/-- Modelled from the spec: the `PromptView`-based `PromptBuilder` that
`python/chatguide/chatguide.py` imports (`from .builders.prompt import
PromptBuilder, PromptView`) is missing from the source tree — the
`builders/prompt.py` present defines an earlier builder with no
`PromptView` and no `last_error` field, while `_build_prompt` sets
`view.last_error = self.state.get("last_error")`.  Per the spec (§4.3,
§7b) the built prompt is a pure function of the view that appends the
retry directive carrying the validation error. -/
def buildPrompt (cfg : CGConfig) (st : CGState) : String :=
  "TONE: " ++ cfg.tone ++ "\nGUARDRAILS: " ++ cfg.guardrails ++
  "\nSTATE:\n" ++ renderData st.data ++ "HISTORY:\n" ++ renderMessages st.messages ++
  (match st.last_error with
   | some e => "RETRY DIRECTIVE: " ++ e
   | none => "")

end MinCG

namespace SrcState

/-- `State` from `src/chatguide/state.py`: the flat `_data` dict.  The
optional audit log is `None` on every construction path these claims
reach (`State()`, `State(initial)`, `State(checkpoint["state"])`), so it
is omitted; template resolution is not exercised by the claims. -/
structure State where
  data : List (String × PyVal)
  deriving DecidableEq, Repr

/-- `State.get`. -/
def State.get (s : State) (key : String) : PyVal :=
  (dlookup s.data key).getD PyVal.null

/-- `State.set` (no audit log attached). -/
def State.set (s : State) (key : String) (value : PyVal) : State :=
  ⟨dset s.data key value⟩

/-- `State.to_dict`: a copy of `_data`. -/
def State.to_dict (s : State) : List (String × PyVal) :=
  s.data

end SrcState

namespace SrcAdj

/-- `Adjustment` from `src/chatguide/adjustments.py` (the checkpoint-side
variant): the condition is a Python expression string (never evaluated by
the checkpoint paths) and the actions are config dicts. -/
structure Adjustment where
  name : String
  condition : String
  actions : List (List (String × PyVal)) := []
  fired : Bool := false
  deriving DecidableEq, Repr

end SrcAdj

namespace SrcCG

/-- `TaskDefinition` from `src/chatguide/schemas.py`. -/
structure TaskDefinition where
  description : String
  expects : List String := []
  tools : List (List (String × PyVal)) := []
  silent : Bool := false
  deriving DecidableEq, Repr

/-- The fields of a `ChatGuide` instance (`src/chatguide/chatguide.py`)
that `__init__`, `checkpoint` and `from_checkpoint` touch.  Runtime-only
machinery (tool registry/executor, logger, stream callbacks, middleware,
task hooks, `_last_response`) carries no checkpointed data and is
omitted. -/
structure ChatGuideS where
  state : SrcState.State
  plan : SrcPlan.Plan
  tasks : List (String × TaskDefinition)
  adjustments : List SrcAdj.Adjustment
  tone : List String
  tone_definitions : List (String × String)
  guardrails : String
  language : String
  conversation_history : List (String × String)
  last_fired_adjustments : List String
  completed_tasks : List String
  execution_status : String
  data_extractions : List (String × List (String × PyVal))
  errors : List (List (String × PyVal))
  retry_count : Nat
  session_id : Option String
  session_metadata : List (String × PyVal)
  metrics : List (String × PyVal)
  api_key : Option String
  debug : Bool
  deriving DecidableEq, Repr

/-- `ChatGuide.__init__(api_key, debug)`: the fresh instance
`from_checkpoint` starts from. -/
def init (api_key : Option String) (debug : Bool) : ChatGuideS :=
  { state := ⟨[]⟩
    plan := ⟨[], 0⟩
    tasks := []
    adjustments := []
    tone := []
    tone_definitions := []
    guardrails := ""
    language := "en"
    conversation_history := []
    last_fired_adjustments := []
    completed_tasks := []
    execution_status := "idle"
    data_extractions := []
    errors := []
    retry_count := 0
    session_id := none
    session_metadata := []
    metrics := [("llm_calls", PyVal.num { num := 0 }), ("tokens_used", PyVal.num { num := 0 }),
                ("total_duration_ms", PyVal.num { num := 0 }),
                ("task_completions", PyVal.num { num := 0 }), ("errors", PyVal.num { num := 0 })]
    api_key := api_key
    debug := debug }

/-- The `config` section `checkpoint(include_config=True)` embeds: task
definitions, tone definitions, guardrails, language — and no adjustment
definitions. -/
structure CheckpointConfig where
  tasks : List (String × TaskDefinition)
  tone_definitions : List (String × String)
  guardrails : String
  language : String
  deriving DecidableEq, Repr

/-- The checkpoint dict `ChatGuide.checkpoint` builds. -/
structure Checkpoint where
  version : String
  timestamp : String
  session_id : Option String
  session_metadata : List (String × PyVal)
  state : List (String × PyVal)
  plan_blocks : List (List String)
  plan_current_index : Nat
  tone : List String
  completed_tasks : List String
  execution_status : String
  data_extractions : List (String × List (String × PyVal))
  errors : List (List (String × PyVal))
  retry_count : Nat
  conversation_history : List (String × String)
  fired_adjustments : List String
  metrics : List (String × PyVal)
  config : Option CheckpointConfig
  deriving DecidableEq, Repr

/-- `ChatGuide.checkpoint(include_config)`: serialize the session.
`timestamp` is `datetime.now().isoformat()`, supplied here as an
argument; `fired_adjustments` records the names of the adjustments whose
`fired` flag is set. -/
def checkpoint (cg : ChatGuideS) (timestamp : String) (include_config : Bool) : Checkpoint :=
  { version := "1.0"
    timestamp := timestamp
    session_id := cg.session_id
    session_metadata := cg.session_metadata
    state := cg.state.to_dict
    plan_blocks := cg.plan.blocks
    plan_current_index := cg.plan.current_index
    tone := cg.tone
    completed_tasks := cg.completed_tasks
    execution_status := cg.execution_status
    data_extractions := cg.data_extractions
    errors := cg.errors
    retry_count := cg.retry_count
    conversation_history := cg.conversation_history
    fired_adjustments := (cg.adjustments.filter (·.fired)).map (·.name)
    metrics := cg.metrics
    config := if include_config then
        some ⟨cg.tasks, cg.tone_definitions, cg.guardrails, cg.language⟩
      else none }

/-- `ChatGuide.from_checkpoint`: build a fresh instance, restore the stored
fields, restore config when embedded, then set `fired = True` on those of
the NEW instance's adjustments whose name is in `fired_adjustments` — the
fresh instance has none, and the config section stores no adjustment
definitions, so the loop body never runs.  The second component collects
the warnings the restore emits: the source emits none. -/
def from_checkpoint (cp : Checkpoint) (api_key : Option String) (debug : Bool) :
    ChatGuideS × List String :=
  let cg := init api_key debug
  let cg := { cg with
    state := ⟨cp.state⟩
    plan := ⟨cp.plan_blocks, cp.plan_current_index⟩
    tone := cp.tone
    completed_tasks := cp.completed_tasks
    execution_status := cp.execution_status
    data_extractions := cp.data_extractions
    errors := cp.errors
    retry_count := cp.retry_count
    conversation_history := cp.conversation_history
    session_id := cp.session_id
    session_metadata := cp.session_metadata
    metrics := cp.metrics }
  let cg := match cp.config with
    | some cfg => { cg with
        tasks := cfg.tasks
        tone_definitions := cfg.tone_definitions
        guardrails := cfg.guardrails
        language := cfg.language }
    | none => cg
  let cg := { cg with
    adjustments := cg.adjustments.map fun adj =>
      if adj.name ∈ cp.fired_adjustments then { adj with fired := true } else adj }
  (cg, [])

/-- The externally observable fired-adjustment names of an instance. -/
def firedNames (cg : ChatGuideS) : List String :=
  (cg.adjustments.filter (·.fired)).map (·.name)

end SrcCG

/-! Concrete instances used by the claim statements and witnesses. -/

/-- The spec scenario's age expectation: a number in 1..120. -/
def ageExpect : Schemas.ExpectDefinition :=
  { key := "age", type := "number", min := some { num := 1 }, max := some { num := 120 } }

/-- A config with the single task `get_age` expecting `age`. -/
def cfgAge : MinCG.CGConfig :=
  { blocks := [["get_age"]],
    tasks := [("get_age", { description := "Ask the user for their age", expects := [ageExpect] })] }

/-- A fresh conversation state. -/
def emptyState : MinCG.CGState := { data := [] }

/-- A model reply extracting `age = "150"`. -/
def rAge150 : MinCG.Reply :=
  { assistant_reply := "Noted!",
    task_results := [{ task_id := "get_age", key := "age", value := "150" }] }

/-- A model reply hallucinating a key the current task does not expect —
and supplying nothing for the expected `age`. -/
def rHalluc : MinCG.Reply :=
  { assistant_reply := "hello",
    task_results := [{ task_id := "", key := "hallucinated", value := "x" }] }

/-- A config with a single silent task expecting the number `k`. -/
def cfgSilent : MinCG.CGConfig :=
  { blocks := [["probe"]],
    tasks := [("probe", { description := "silently probe",
                          expects := [{ key := "k", type := "number" }], silent := true })] }

/-- A model reply supplying an invalid (non-numeric) value for `k`. -/
def rBadK : MinCG.Reply :=
  { assistant_reply := "...",
    task_results := [{ task_id := "probe", key := "k", value := "oops" }] }

/-- An adjustment with an always-true condition. -/
def adjAlwaysA : PyAdj.Adjustment := { name := "a", condition := .bool true, actions := [] }

/-- A second adjustment with an always-true condition. -/
def adjAlwaysB : PyAdj.Adjustment := { name := "b", condition := .bool true, actions := [] }

/-- An adjustment that already fired. -/
def adjPrefired : PyAdj.Adjustment :=
  { name := "w", condition := .bool true, actions := [], fired := true }

/-- An empty engine environment. -/
def envEmpty : PyAdj.EngSt := { state := [], plan := ⟨[], 0⟩, tone := [] }

/-- Default element for positional access into adjustment lists. -/
def dAdj : PyAdj.Adjustment := { name := "", condition := .other, actions := [] }

/-- A ChatGuide instance holding one fired adjustment. -/
def cgWithFired : SrcCG.ChatGuideS :=
  { SrcCG.init none false with
    adjustments := [{ name := "warm", condition := "True", actions := [], fired := true }] }

/-! Helper lemmas shared by the claim theorems. -/

theorem insertAt_length {α : Type} (x : α) :
    ∀ (n : Nat) (xs : List α), (insertAt n x xs).length = xs.length + 1 := by
  intro n
  induction n with
  | zero => intro xs; cases xs <;> simp [insertAt]
  | succ n ih =>
    intro xs
    cases xs with
    | nil => simp [insertAt]
    | cons y ys => simp [insertAt, ih ys]

theorem pyInsert_length {α : Type} (xs : List α) (i : Int) (x : α) :
    (pyInsert xs i x).length = xs.length + 1 := by
  unfold pyInsert
  exact insertAt_length x _ xs

theorem planOp_apply_mono (p : SrcPlan.Plan) (op : SrcPlan.PlanOp) (h : op.isJump = false) :
    p.current_index ≤ (SrcPlan.PlanOp.apply p op).current_index := by
  cases op with
  | advance =>
    simp only [SrcPlan.PlanOp.apply, SrcPlan.Plan.advance]
    split <;> simp [Nat.le_succ]
  | jump_to i => simp [SrcPlan.PlanOp.isJump] at h
  | insert_block i ts => simp [SrcPlan.PlanOp.apply, SrcPlan.Plan.insert_block]
  | remove_block i =>
    simp only [SrcPlan.PlanOp.apply, SrcPlan.Plan.remove_block]
    split <;> simp
  | replace_block i ts =>
    simp only [SrcPlan.PlanOp.apply, SrcPlan.Plan.replace_block]
    split <;> simp
  | insert_task b t pos =>
    simp only [SrcPlan.PlanOp.apply, SrcPlan.Plan.insert_task]
    split <;> simp
  | remove_task b t =>
    simp only [SrcPlan.PlanOp.apply, SrcPlan.Plan.remove_task]
    split
    · split <;> simp
    · simp

theorem applyOps_mono (ops : List SrcPlan.PlanOp) :
    ∀ p : SrcPlan.Plan, (∀ op ∈ ops, op.isJump = false) →
      p.current_index ≤ (SrcPlan.applyOps ops p).current_index := by
  induction ops with
  | nil => intro p _; simp [SrcPlan.applyOps]
  | cons op rest ih =>
    intro p h
    have h1 : op.isJump = false := h op (List.mem_cons_self op rest)
    have h2 : ∀ o ∈ rest, o.isJump = false := fun o ho => h o (List.mem_cons_of_mem op ho)
    have step : SrcPlan.applyOps (op :: rest) p = SrcPlan.applyOps rest (SrcPlan.PlanOp.apply p op) := rfl
    rw [step]
    exact Nat.le_trans (planOp_apply_mono p op h1) (ih _ h2)

theorem Schemas.PyFloat.not_lt (a b : Schemas.PyFloat) : ¬ a.lt b ↔ b.le a :=
  Int.not_lt

theorem checkMin_true_iff (num : Schemas.PyFloat) (mn mx : Option Schemas.PyFloat) :
    (Schemas.checkMin num mn mx).1 = true ↔
      ((∀ m ∈ mn, m.le num) ∧ (∀ M ∈ mx, num.le M)) := by
  have nl : ∀ a b : Schemas.PyFloat, ¬ a.lt b ↔ b.le a := Schemas.PyFloat.not_lt
  cases mn with
  | none =>
    cases mx with
    | none => simp [Schemas.checkMin, Schemas.checkMax]
    | some M =>
      simp only [Schemas.checkMin, Schemas.checkMax]
      split_ifs with h
      · refine iff_of_false (by simp) ?_
        rintro ⟨-, hM⟩
        exact ((nl M num).mpr (hM M rfl)) h
      · refine iff_of_true rfl ⟨by simp, ?_⟩
        intro M' hM'
        simp only [Option.mem_def, Option.some.injEq] at hM'
        subst hM'
        exact (nl M num).mp h
  | some m =>
    cases mx with
    | none =>
      simp only [Schemas.checkMin, Schemas.checkMax]
      split_ifs with h
      · refine iff_of_false (by simp) ?_
        rintro ⟨hm, -⟩
        exact ((nl num m).mpr (hm m rfl)) h
      · refine iff_of_true rfl ⟨?_, by simp⟩
        intro m' hm'
        simp only [Option.mem_def, Option.some.injEq] at hm'
        subst hm'
        exact (nl num m).mp h
    | some M =>
      simp only [Schemas.checkMin, Schemas.checkMax]
      split_ifs with h1 h2
      · refine iff_of_false (by simp) ?_
        rintro ⟨hm, -⟩
        exact ((nl num m).mpr (hm m rfl)) h1
      · refine iff_of_false (by simp) ?_
        rintro ⟨-, hM⟩
        exact ((nl M num).mpr (hM M rfl)) h2
      · refine iff_of_true rfl ⟨?_, ?_⟩
        · intro m' hm'
          simp only [Option.mem_def, Option.some.injEq] at hm'
          subst hm'
          exact (nl num m).mp h1
        · intro M' hM'
          simp only [Option.mem_def, Option.some.injEq] at hM'
          subst hM'
          exact (nl M num).mp h2

/-! Claim theorems. -/

/-- C7: Task completion is idempotent — completing an already-completed
task is a no-op that touches neither `status` nor `result`, and a second
`complete` call leaves the task exactly as a single call does. -/
theorem task_complete_idempotent (t : CoreTask.Task) (k v : String) :
    (t.status = "completed" → t.complete k v = t) ∧
    (t.complete k v).complete k v = t.complete k v := by
  constructor
  · intro h
    simp [CoreTask.Task.complete, h]
  · by_cases h : t.status = "completed" <;> simp [CoreTask.Task.complete, h]

/-- C7 witness: a concrete completed task is untouched by `complete`. -/
theorem task_complete_idempotent_witness :
    CoreTask.Task.complete ⟨"t1", "d", [], [], false, "completed", some ("k0", "v0")⟩ "k" "v"
      = ⟨"t1", "d", [], [], false, "completed", some ("k0", "v0")⟩ :=
  (task_complete_idempotent ⟨"t1", "d", [], [], false, "completed", some ("k0", "v0")⟩ "k" "v").1 rfl

/-- C8: `Plan.advance` is a no-op when the cursor is at or past the end of
the blocks and otherwise increments the cursor by exactly one, and across
any sequence of mutating Plan operations containing no `jump_to` the
cursor never decreases. -/
theorem plan_cursor_monotone (p : SrcPlan.Plan) (ops : List SrcPlan.PlanOp)
    (h : ∀ op ∈ ops, op.isJump = false) :
    (p.blocks.length ≤ p.current_index → p.advance = p) ∧
    (p.current_index < p.blocks.length → (p.advance).current_index = p.current_index + 1) ∧
    p.current_index ≤ (SrcPlan.applyOps ops p).current_index := by
  refine ⟨?_, ?_, applyOps_mono ops p h⟩
  · intro hle
    simp [SrcPlan.Plan.advance, Nat.not_lt.mpr hle]
  · intro hlt
    simp [SrcPlan.Plan.advance, hlt]

/-- C8 witness: a concrete jump-free operation sequence never lowers the
cursor. -/
theorem plan_cursor_monotone_witness :
    (∀ op ∈ [SrcPlan.PlanOp.advance, SrcPlan.PlanOp.insert_block 0 []], op.isJump = false) ∧
    (⟨[["a"]], 0⟩ : SrcPlan.Plan).current_index ≤
      (SrcPlan.applyOps [SrcPlan.PlanOp.advance, SrcPlan.PlanOp.insert_block 0 []] ⟨[["a"]], 0⟩).current_index :=
  ⟨by decide, (plan_cursor_monotone ⟨[["a"]], 0⟩ _ (by decide)).2.2⟩

/-- C9 counterexample: at the out-of-range index 5 on a one-block plan,
`jump_to`, `remove_block` and `replace_block` leave the plan unchanged
(and raise nothing), while `insert_block` mutates it — Python
`list.insert` clamps the index and appends — so the four mutation
operations do not share one out-of-range policy. -/
theorem plan_oob_policy_counterexample :
    SrcPlan.Plan.jump_to ⟨[["a"]], 0⟩ 5 = ⟨[["a"]], 0⟩ ∧
    SrcPlan.Plan.remove_block ⟨[["a"]], 0⟩ 5 = ⟨[["a"]], 0⟩ ∧
    SrcPlan.Plan.replace_block ⟨[["a"]], 0⟩ 5 ["b"] = ⟨[["a"]], 0⟩ ∧
    SrcPlan.Plan.insert_block ⟨[["a"]], 0⟩ 5 ["b"] ≠ ⟨[["a"]], 0⟩ ∧
    SrcPlan.Plan.insert_block ⟨[["a"]], 0⟩ 5 ["b"] = ⟨[["a"], ["b"]], 0⟩ := by
  decide

/-- C9 amended: `jump_to`, `remove_block` and `replace_block` silently
ignore an out-of-range index (plan unchanged, nothing raised), but
`insert_block` is not bounds-checked: it follows Python `list.insert`
clamping and always grows the block list by one. -/
theorem plan_oob_uniformity_amended (p : SrcPlan.Plan) (i : Int) (ts : List String)
    (h : ¬ (0 ≤ i ∧ i < (p.blocks.length : Int))) :
    p.jump_to i = p ∧ p.remove_block i = p ∧ p.replace_block i ts = p ∧
    (p.insert_block i ts).blocks.length = p.blocks.length + 1 := by
  refine ⟨?_, ?_, ?_, ?_⟩ <;>
    simp [SrcPlan.Plan.jump_to, SrcPlan.Plan.remove_block, SrcPlan.Plan.replace_block,
      SrcPlan.Plan.insert_block, h, pyInsert_length]

/-- C9 amended witness: the concrete out-of-range insert grows a one-block
plan. -/
theorem plan_oob_uniformity_amended_witness :
    ¬ ((0 : Int) ≤ 5 ∧ (5 : Int) < (((⟨[["a"]], 0⟩ : SrcPlan.Plan)).blocks.length : Int)) ∧
    (SrcPlan.Plan.insert_block ⟨[["a"]], 0⟩ 5 ["b"]).blocks.length = 2 :=
  ⟨by decide, (plan_oob_uniformity_amended ⟨[["a"]], 0⟩ 5 ["b"] (by decide)).2.2.2⟩

/-- C6 counterexample: an `enum` expectation whose `choices` is `None`
accepts every value — `"happy"` is accepted although it is a
case-insensitive member of no choices — so acceptance is not exactly
case-insensitive membership in `choices` (the code skips the check
whenever `choices` is falsy). -/
theorem validate_enum_counterexample :
    (Schemas.ExpectDefinition.validate_value ⟨"mood", "enum", none, none, none, false⟩ "happy").1 = true ∧
    ¬ Schemas.enumMemberSpec ⟨"mood", "enum", none, none, none, false⟩ "happy" := by
  constructor
  · rfl
  · decide

/-- C6 amended: `validate_value` is a pure total function into
`(valid, error)`; for type `number` it accepts exactly the values that
parse as a float and lie inclusively within the set `min`/`max` bounds;
for type `enum` it accepts exactly the case-insensitive members of
`choices` WHEN `choices` is present and non-empty, and every value when
`choices` is absent or empty; for every other type (including `string`)
it accepts every value. -/
theorem validate_value_amended (e : Schemas.ExpectDefinition) (v : String) :
    (e.type = "number" →
      ((e.validate_value v).1 = true ↔
        ∃ q, Schemas.pyFloat? v = some q ∧ (∀ m ∈ e.min, m.le q) ∧ (∀ M ∈ e.max, q.le M))) ∧
    (e.type = "enum" →
      ((e.validate_value v).1 = true ↔
        (e.choices.getD [] = [] ∨ Schemas.enumMemberSpec e v))) ∧
    (e.type ≠ "number" → e.type ≠ "enum" → (e.validate_value v).1 = true) := by
  refine ⟨?_, ?_, ?_⟩
  · intro ht
    simp only [Schemas.ExpectDefinition.validate_value, ht, if_pos rfl]
    cases hp : Schemas.pyFloat? v with
    | none => simp
    | some q => simp [checkMin_true_iff]
  · intro ht
    simp only [Schemas.ExpectDefinition.validate_value, ht]
    rw [if_neg (by decide : ¬ ("enum" : String) = "number"), if_pos trivial]
    cases hc : e.choices with
    | none => simp [Schemas.enumMemberSpec, hc]
    | some cs =>
      simp only [Schemas.enumMemberSpec, hc, Option.getD_some]
      by_cases hcs : cs = []
      · subst hcs
        simp
      · by_cases hmem : Schemas.asciiLower v ∈ cs.map Schemas.asciiLower
        · have hno : ¬ (cs ≠ [] ∧ Schemas.asciiLower v ∉ cs.map Schemas.asciiLower) :=
            fun hcon => hcon.2 hmem
          rw [if_neg hno]
          refine iff_of_true rfl ?_
          rcases List.mem_map.mp hmem with ⟨c, hcmem, heq⟩
          exact Or.inr ⟨c, hcmem, heq⟩
        · rw [if_pos ⟨hcs, hmem⟩]
          refine iff_of_false (by simp) ?_
          rintro (h0 | ⟨c, hcmem, heq⟩)
          · exact hcs h0
          · exact hmem (List.mem_map.mpr ⟨c, hcmem, heq⟩)
  · intro h1 h2
    simp [Schemas.ExpectDefinition.validate_value, h1, h2]

/-- C6 amended witness: a case-insensitive member of a non-empty choices
list is accepted. -/
theorem validate_value_amended_witness :
    (Schemas.ExpectDefinition.validate_value ⟨"mood", "enum", none, none, some ["Happy", "Sad"], false⟩ "hAPPY").1 = true :=
  ((validate_value_amended ⟨"mood", "enum", none, none, some ["Happy", "Sad"], false⟩ "hAPPY").2.1 rfl).mpr
    (Or.inr ⟨"Happy", by decide, by decide⟩)

/-- C1 counterexample: an instance with one fired adjustment; the
checkpoint records the name, but the restored instance's adjustment list
is empty (`__init__` creates none and the config section stores no
adjustment definitions), so its fired set is empty and the restore emits
no warning — fired-adjustment state is silently lost on round-trip. -/
theorem checkpoint_roundtrip_counterexample :
    SrcCG.firedNames cgWithFired = ["warm"] ∧
    (SrcCG.checkpoint cgWithFired "t0" true).fired_adjustments = ["warm"] ∧
    SrcCG.firedNames (SrcCG.from_checkpoint (SrcCG.checkpoint cgWithFired "t0" true) none false).1 = [] ∧
    (SrcCG.from_checkpoint (SrcCG.checkpoint cgWithFired "t0" true) none false).1.adjustments = [] ∧
    (SrcCG.from_checkpoint (SrcCG.checkpoint cgWithFired "t0" true) none false).2 = [] := by
  decide

/-- C1 amended: `from_checkpoint ∘ checkpoint` restores the State data, the
Plan blocks and cursor, the conversation history, tone, completed tasks,
execution status, retry count, session id, session metadata and metrics
exactly; the checkpoint's `fired_adjustments` records exactly the fired
names; but the restored adjustment list is always empty — the fired
flags are dropped with no warning emitted (the warning list of the
restore is always empty). -/
theorem checkpoint_roundtrip_amended (cg : SrcCG.ChatGuideS) (ts : String) (ic : Bool)
    (key : Option String) (dbg : Bool) :
    (SrcCG.from_checkpoint (SrcCG.checkpoint cg ts ic) key dbg).1.state = cg.state ∧
    (SrcCG.from_checkpoint (SrcCG.checkpoint cg ts ic) key dbg).1.plan = cg.plan ∧
    (SrcCG.from_checkpoint (SrcCG.checkpoint cg ts ic) key dbg).1.conversation_history = cg.conversation_history ∧
    (SrcCG.from_checkpoint (SrcCG.checkpoint cg ts ic) key dbg).1.tone = cg.tone ∧
    (SrcCG.from_checkpoint (SrcCG.checkpoint cg ts ic) key dbg).1.completed_tasks = cg.completed_tasks ∧
    (SrcCG.from_checkpoint (SrcCG.checkpoint cg ts ic) key dbg).1.execution_status = cg.execution_status ∧
    (SrcCG.from_checkpoint (SrcCG.checkpoint cg ts ic) key dbg).1.retry_count = cg.retry_count ∧
    (SrcCG.from_checkpoint (SrcCG.checkpoint cg ts ic) key dbg).1.session_id = cg.session_id ∧
    (SrcCG.from_checkpoint (SrcCG.checkpoint cg ts ic) key dbg).1.session_metadata = cg.session_metadata ∧
    (SrcCG.from_checkpoint (SrcCG.checkpoint cg ts ic) key dbg).1.metrics = cg.metrics ∧
    (SrcCG.checkpoint cg ts ic).fired_adjustments = SrcCG.firedNames cg ∧
    (SrcCG.from_checkpoint (SrcCG.checkpoint cg ts ic) key dbg).1.adjustments = [] ∧
    (SrcCG.from_checkpoint (SrcCG.checkpoint cg ts ic) key dbg).2 = [] := by
  cases ic <;>
    simp [SrcCG.from_checkpoint, SrcCG.checkpoint, SrcCG.init, SrcCG.firedNames,
      SrcState.State.to_dict]

/-- C2 counterexample: with two un-fired always-true adjustments, one
`evaluate` call fires BOTH — `fired_names` is `["a", "b"]` and both fired
flags are set — so more than one adjustment fires in a single call and
evaluation does not stop after the first match. -/
theorem adjust_first_match_counterexample :
    (PyAdj.evaluate [adjAlwaysA, adjAlwaysB] envEmpty).2.2 = ["a", "b"] ∧
    (PyAdj.evaluate [adjAlwaysA, adjAlwaysB] envEmpty).1.map (·.fired) = [true, true] := by
  decide

/-- C2 amended: after an un-fired head adjustment's condition evaluates
true, its actions execute and it is latched — and the loop CONTINUES
through the rest of the list against the mutated environment (appending
its name first): every un-fired adjustment whose condition holds fires in
the same call; only already-fired adjustments are skipped. -/
theorem adjust_eval_continues (a : PyAdj.Adjustment) (rest : List PyAdj.Adjustment)
    (st : PyAdj.EngSt) (hf : a.fired = false)
    (hc : PyAdj.evalCond a.condition st.state = .ok true) :
    (PyAdj.evaluate (a :: rest) st).2.2 =
      a.name :: (PyAdj.evaluate rest (PyAdj.execActions st a.actions)).2.2 ∧
    (PyAdj.evaluate (a :: rest) st).1 =
      { a with fired := true } :: (PyAdj.evaluate rest (PyAdj.execActions st a.actions)).1 := by
  constructor <;> simp [PyAdj.evaluate, PyAdj.evalStep, hf, hc]

/-- C2 amended witness: the concrete two-rule engine continues past the
first firing rule. -/
theorem adjust_eval_continues_witness :
    adjAlwaysA.fired = false ∧
    PyAdj.evalCond adjAlwaysA.condition envEmpty.state = .ok true ∧
    (PyAdj.evaluate [adjAlwaysA, adjAlwaysB] envEmpty).2.2 =
      adjAlwaysA.name :: (PyAdj.evaluate [adjAlwaysB] (PyAdj.execActions envEmpty adjAlwaysA.actions)).2.2 :=
  ⟨rfl, rfl, (adjust_eval_continues adjAlwaysA [adjAlwaysB] envEmpty rfl rfl).1⟩

theorem evalStep_length (adjs : List PyAdj.Adjustment) :
    ∀ st, ((PyAdj.evalStep adjs st).1).length = adjs.length := by
  induction adjs with
  | nil => intro st; rfl
  | cons a rest ih =>
    intro st
    simp only [PyAdj.evalStep]
    split
    · simp [ih]
    · split <;> simp [ih]

theorem evalStep_exec_fired (adjs : List PyAdj.Adjustment) :
    ∀ st i, (((PyAdj.evalStep adjs st).1.getD i (dAdj, false)).2 = true →
      ((PyAdj.evalStep adjs st).1.getD i (dAdj, false)).1.fired = true) := by
  induction adjs with
  | nil => intro st i h; simp [PyAdj.evalStep, dAdj] at h
  | cons a rest ih =>
    intro st i
    simp only [PyAdj.evalStep]
    split
    · cases i with
      | zero => intro h; simp at h
      | succ n => simpa using ih st n
    · split
      · cases i with
        | zero => intro _; rfl
        | succ n => simpa using ih _ n
      · cases i with
        | zero => intro h; simp at h
        | succ n => simpa using ih st n

theorem evalStep_skip_fired (adjs : List PyAdj.Adjustment) :
    ∀ st i, (adjs.getD i dAdj).fired = true →
      (PyAdj.evalStep adjs st).1.getD i (dAdj, false) = (adjs.getD i dAdj, false) := by
  induction adjs with
  | nil => intro st i h; simp [dAdj] at h
  | cons a rest ih =>
    intro st i h
    simp only [PyAdj.evalStep]
    cases i with
    | zero =>
      simp only [List.getD_cons_zero] at h ⊢
      simp [h]
    | succ n =>
      simp only [List.getD_cons_succ] at h ⊢
      split
      · simpa using ih st n h
      · split
        · simpa using ih _ n h
        · simpa using ih st n h

theorem getD_map_snd (l : List (PyAdj.Adjustment × Bool)) :
    ∀ i, (l.map (·.2)).getD i false = (l.getD i (dAdj, false)).2 := by
  induction l with
  | nil => intro i; rfl
  | cons p rest ih =>
    intro i
    cases i with
    | zero => rfl
    | succ n =>
      simp only [List.map_cons, List.getD_cons_succ]
      exact ih n

theorem getD_map_fst (l : List (PyAdj.Adjustment × Bool)) :
    ∀ i, (l.map (·.1)).getD i dAdj = (l.getD i (dAdj, false)).1 := by
  induction l with
  | nil => intro i; rfl
  | cons p rest ih =>
    intro i
    cases i with
    | zero => rfl
    | succ n =>
      simp only [List.map_cons, List.getD_cons_succ]
      exact ih n

theorem runTurns_fired_zero (envs : List PyAdj.EngSt) :
    ∀ (adjs : List PyAdj.Adjustment) (i : Nat), (adjs.getD i dAdj).fired = true →
      PyAdj.execCount i (PyAdj.runTurns adjs envs).2 = 0 := by
  induction envs with
  | nil => intro adjs i _; rfl
  | cons env envs ih =>
    intro adjs i h
    simp only [PyAdj.runTurns, PyAdj.execCount]
    rw [getD_map_snd, evalStep_skip_fired adjs env i h]
    simp only [if_neg (by simp : ¬ (false = true))]
    have hfst : (((PyAdj.evalStep adjs env).1.map (·.1)).getD i dAdj).fired = true := by
      rw [getD_map_fst, evalStep_skip_fired adjs env i h]
      exact h
    simpa using ih _ i hfst

theorem runTurns_le_one (envs : List PyAdj.EngSt) :
    ∀ (adjs : List PyAdj.Adjustment) (i : Nat),
      PyAdj.execCount i (PyAdj.runTurns adjs envs).2 ≤ 1 := by
  induction envs with
  | nil => intro adjs i; exact Nat.zero_le 1
  | cons env envs ih =>
    intro adjs i
    simp only [PyAdj.runTurns, PyAdj.execCount]
    rw [getD_map_snd]
    by_cases hex : ((PyAdj.evalStep adjs env).1.getD i (dAdj, false)).2 = true
    · rw [if_pos hex]
      have hfired : (((PyAdj.evalStep adjs env).1.map (·.1)).getD i dAdj).fired = true := by
        rw [getD_map_fst]
        exact evalStep_exec_fired adjs env i hex
      rw [runTurns_fired_zero envs _ i hfired]
    · rw [if_neg hex]
      simpa using ih _ i

/-- C3: across any sequence of `evaluate` calls — with arbitrary
state/plan/tone environments between the turns and no reset — the actions
of the adjustment at any position execute at most once; and once its
`fired` flag is set it is never executed again at all. -/
theorem adjust_at_most_once (adjs : List PyAdj.Adjustment) (envs : List PyAdj.EngSt) (i : Nat) :
    PyAdj.execCount i (PyAdj.runTurns adjs envs).2 ≤ 1 ∧
    ((adjs.getD i dAdj).fired = true →
      PyAdj.execCount i (PyAdj.runTurns adjs envs).2 = 0) :=
  ⟨runTurns_le_one envs adjs i, runTurns_fired_zero envs adjs i⟩

/-- C3 witness: a pre-fired rule with an always-true condition never
re-executes across two turns. -/
theorem adjust_at_most_once_witness :
    ([adjPrefired].getD 0 dAdj).fired = true ∧
    PyAdj.execCount 0 (PyAdj.runTurns [adjPrefired] [envEmpty, envEmpty]).2 = 0 :=
  ⟨by decide, (adjust_at_most_once [adjPrefired] [envEmpty, envEmpty] 0).2 (by decide)⟩

theorem currentTaskId_reset (cfg : MinCG.CGConfig) (st : MinCG.CGState) :
    MinCG.currentTaskId cfg { st with last_error := none } = MinCG.currentTaskId cfg st := rfl

/-- C4 (code bug): step 2 of `_process_reply` documents the synthesis —
"Missing key - create with null value" — and step 3 guards on
`tr.value is None`, but `TaskResult.value` is annotated `value: str`
(no Optional, no default), so pydantic rejects `value=None` and the
turn raises a `ValidationError` instead of synthesizing a null entry.
Evaluated at the failing input: `get_age` expects `age`; the reply
carries only the hallucinated key, which the whitelist drops, and the
turn then crashes synthesizing `age`. -/
theorem whitelist_null_synthesis_bug :
    rHalluc.task_results.filter
      (fun tr => (((MinCG.taskDefD cfgAge "get_age").expects).map (·.key)).contains tr.key) = [] ∧
    MinCG.turnResultsFor cfgAge "get_age" rHalluc = .error () ∧
    MinCG.processReply cfgAge emptyState rHalluc = .error () ∧
    MinCG.chat cfgAge emptyState [rHalluc] 2 = .error () := by
  decide

theorem startsW_refl : ∀ l : List Char, startsW l l = true := by
  intro l
  induction l with
  | nil => rfl
  | cons c t ih => simp [startsW, ih]

theorem listSub_self : ∀ l : List Char, listSub l l = true := by
  intro l
  cases l with
  | nil => rfl
  | cons c t => simp [listSub, startsW_refl]

theorem listSub_suffix (ys : List Char) : ∀ xs : List Char, listSub (xs ++ ys) ys = true := by
  intro xs
  induction xs with
  | nil => simpa using listSub_self ys
  | cons x xs ih => simp [listSub, ih]

theorem containsSub_suffix (s t : String) : containsSub (s ++ t) t = true := by
  unfold containsSub
  rw [String.data_append]
  exact listSub_suffix t.data s.data

theorem firstPending_not_mem (completed : List String) :
    ∀ l tid, MinCG.firstPending completed l = some tid → tid ∉ completed := by
  intro l
  induction l with
  | nil => intro tid h; simp [MinCG.firstPending] at h
  | cons t rest ih =>
    intro tid h
    simp only [MinCG.firstPending] at h
    split at h
    · exact ih tid h
    · cases h
      assumption

theorem currentTaskId_not_completed (cfg : MinCG.CGConfig) (st : MinCG.CGState) (tid : String)
    (h : MinCG.currentTaskId cfg st = some tid) : tid ∉ st.completed := by
  unfold MinCG.currentTaskId at h
  split at h
  · exact firstPending_not_mem _ _ tid h
  · cases h

theorem containsSub_suffix2 (s t u : String) : containsSub (s ++ (t ++ u)) u = true := by
  unfold containsSub
  simp only [String.data_append]
  rw [← List.append_assoc]
  exact listSub_suffix u.data _

theorem processReply_validation_failure (cfg : MinCG.CGConfig) (st : MinCG.CGState)
    (tid d : String) (sil : Bool) (e : Schemas.ExpectDefinition) (v atext : String)
    (h1 : MinCG.currentTaskId cfg st = some tid)
    (h2 : dlookup cfg.tasks tid = some ⟨d, [e], sil⟩)
    (h3 : (e.validate_value v).1 = false)
    (h4 : dlookup st.data e.key = none) :
    MinCG.processReply cfg st ⟨atext, [⟨tid, e.key, v⟩], []⟩ =
      .ok { st with last_error := some (MinCG.mkRetryMsg e.key v (e.validate_value v).2) } := by
  have htdef : MinCG.taskDefD cfg tid = ⟨d, [e], sil⟩ := by
    simp [MinCG.taskDefD, h2]
  have hres : MinCG.turnResultsFor cfg tid ⟨atext, [⟨tid, e.key, v⟩], []⟩ =
      .ok [⟨tid, e.key, v⟩] := by
    simp [MinCG.turnResultsFor, htdef, MinCG.turnResults, MinCG.lookupLast]
  have happ : MinCG.applyResults [e] [⟨tid, e.key, v⟩] { st with last_error := none } =
      { st with last_error := some (MinCG.mkRetryMsg e.key v (e.validate_value v).2) } := by
    simp [MinCG.applyResults, List.find?, h3]
  have hic : MinCG.taskIsComplete cfg
      { st with last_error := some (MinCG.mkRetryMsg e.key v (e.validate_value v).2) } tid = false := by
    simp [MinCG.taskIsComplete, htdef, h4]
  simp only [MinCG.processReply, currentTaskId_reset, h1, htdef, hres, happ,
    MinCG.completeAdvance, hic]
  simp

/-- C5: validation failure semantics with bounded retry — when the reply's
value for the current task's single expected key fails validation, the
value is not written and the task is not completed (the turn's only
effect is storing the retry directive carrying the validation error in
`last_error`), and that directive appears verbatim in the next prompt;
in the spec scenario (`age = "150"` against a 1..120 number), State
stays unchanged, `get_age` stays pending, the error states the value is
above maximum 120, and `chat` with its default budget of 2
force-completes the task with null data once the retries are exhausted,
still returning a reply. -/
theorem validation_failure_semantics (cfg : MinCG.CGConfig) (st : MinCG.CGState)
    (tid d : String) (sil : Bool) (e : Schemas.ExpectDefinition) (v atext : String)
    (h1 : MinCG.currentTaskId cfg st = some tid)
    (h2 : dlookup cfg.tasks tid = some ⟨d, [e], sil⟩)
    (h3 : (e.validate_value v).1 = false)
    (h4 : dlookup st.data e.key = none) :
    ((MinCG.processReply cfg st ⟨atext, [⟨tid, e.key, v⟩], []⟩ =
        .ok { st with last_error := some (MinCG.mkRetryMsg e.key v (e.validate_value v).2) }) ∧
     tid ∉ st.completed ∧
     containsSub
       (MinCG.buildPrompt cfg
         { st with last_error := some (MinCG.mkRetryMsg e.key v (e.validate_value v).2) })
       (MinCG.mkRetryMsg e.key v (e.validate_value v).2) = true) ∧
    ((MinCG.processReply cfgAge emptyState rAge150 =
        .ok { emptyState with
          last_error := some "User provided '150' for 'age', but that is invalid: Value 150.0 is above maximum 120.0. Ask them to correct it." }) ∧
     containsSub "User provided '150' for 'age', but that is invalid: Value 150.0 is above maximum 120.0. Ask them to correct it."
       "is above maximum 120" = true ∧
     MinCG.chat cfgAge emptyState [rAge150, rAge150] 2 =
       .ok (MinCG.ChatOut.reply rAge150,
         { data := [], messages := [("assistant", "Noted!")], block := 1,
           completed := ["get_age"], recent_keys := [],
           last_error := some "User provided '150' for 'age', but that is invalid: Value 150.0 is above maximum 120.0. Ask them to correct it." })) := by
  refine ⟨⟨processReply_validation_failure cfg st tid d sil e v atext h1 h2 h3 h4,
      currentTaskId_not_completed cfg st tid h1, ?_⟩, by decide, by decide, by decide⟩
  simp only [MinCG.buildPrompt]
  exact containsSub_suffix2 _ "RETRY DIRECTIVE: " _

/-- C5 witness: the scenario instance of the validation-failure theorem —
the turn's only effect on the state is the stored retry directive for
`age = "150"`. -/
theorem validation_failure_semantics_witness :
    MinCG.processReply cfgAge emptyState
        ⟨"Noted!", [⟨"get_age", ageExpect.key, "150"⟩], []⟩ =
      .ok { emptyState with
        last_error := some (MinCG.mkRetryMsg ageExpect.key "150" (ageExpect.validate_value "150").2) } :=
  (validation_failure_semantics cfgAge emptyState "get_age" "Ask the user for their age"
    false ageExpect "150" "Noted!" (by decide) (by decide) (by decide) rfl).1.1

/-- C10: `chat` can hand the caller Python `None`: with a silent task
whose expected number `k` the model answers with an invalid value (the
key is present, so the crashing null-synthesis path is never reached,
but the value fails validation and is never written), both iterations of
the default 2-retry loop find the task incomplete, the second
force-completes it, the silent flag suppresses the return, and the
`while` condition then fails — the loop exits without executing any
`return`, so the caller receives `None` while the task ends
force-completed with null data. -/
theorem chat_silent_returns_none :
    MinCG.chat cfgSilent emptyState [rBadK, rBadK] 2 =
      .ok (MinCG.ChatOut.noneReturn,
        { data := [], messages := [], block := 1, completed := ["probe"],
          recent_keys := [],
          last_error := some "User provided 'oops' for 'k', but that is invalid: 'oops' is not a valid number. Ask them to correct it." }) := by
  decide
